import Mathlib

/-!
Verification of the txtai workflow engine specification (spec.md) against the
repository.  The workflow engine itself (`txtai.workflow`: `Task`, `Workflow`,
scheduling) is exercised by `src/test/python/testworkflow.py`; the engine code
is modelled here from the specification's component design (spec.md §3–§5 and
§7), with the behaviour at concrete inputs pinned by the expectations recorded
in the tests.
-/

set_option autoImplicit false

namespace Txtai

/--
Modelled from the spec: an Element / value flowing through the pipeline
(spec.md §3).  Python values are embedded as a tagged variant: integers,
strings, `None`, tuples and lists.  A 3-tuple `(id, data, tag)` is represented
as `vtuple [i, d, t]`.
-/
inductive Value where
  | vint (n : Int)
  | vstr (s : String)
  | vnone
  | vtuple (vs : List Value)
  | vlist (vs : List Value)

instance (n : Nat) : OfNat Value n := ⟨.vint n⟩

/--
Modelled from the spec: an Action is an opaque unary batch function
`[T] -> [U]` supplied externally (spec.md §4.1); it is invoked once per batch.
-/
def Action : Type := List Value → List Value

mutual

/--
Modelled from the spec: Python `str(value)` as used by the concatenate merge
strategy (spec.md §4.2, `". ".join(str(v) for v in tuple)`).  Integers and
strings render as in Python; `None` renders as `"None"`; tuples and lists
render with their Python delimiters (these cases are never reached by the
merge examples, which join scalars).
-/
def pystr : Value → String
  | .vint n => toString n
  | .vstr s => s
  | .vnone => "None"
  | .vtuple vs =>
      "(" ++ String.intercalate ", " (pystrList vs) ++
        (if vs.length == 1 then ",)" else ")")
  | .vlist vs => "[" ++ String.intercalate ", " (pystrList vs) ++ "]"

/-- Renders each value of a list, auxiliary to `pystr`. -/
def pystrList : List Value → List String
  | [] => []
  | v :: vs => pystr v :: pystrList vs

end

/--
Modelled from the spec: sequential dispatch of a task's action list over one
extracted-value batch (spec.md §4.3) — each action is invoked once against the
full batch, producing one output list per action, in action-list order.
-/
def runActions (actions : List Action) (batch : List Value) : List (List Value) :=
  actions.map fun a => a batch

/--
Modelled from the spec: parallel dispatch over a worker pool (spec.md §4.3).
Workers complete in an arbitrary `order` (a permutation of the action
indices); each completed worker contributes its action index paired with that
action's output, and the executor reassembles the per-action output lists in
original action-list order regardless of completion order (spec.md §5
ordering guarantee).
-/
def runConcurrent (actions : List Action) (batch : List Value) (order : List Nat) :
    List (List Value) :=
  let completed := order.filterMap fun i => (actions[i]?).map fun a => (i, a batch)
  (List.range actions.length).filterMap fun i =>
    (completed.find? fun p => p.1 == i).map Prod.snd

/--
Modelled from the spec: concurrency-mode selection (spec.md §4.3, §7).  The
modes `"thread"` and `"process"` dispatch to a worker pool; any other value
(including the `none` default) runs sequentially — an unrecognized value
degrades gracefully to sequential execution.
-/
def dispatch (mode : Option String) (actions : List Action) (batch : List Value)
    (order : List Nat) : List (List Value) :=
  if mode = some "thread" ∨ mode = some "process" then runConcurrent actions batch order
  else runActions actions batch

/--
Modelled from the spec: an unrecognized (non-default) concurrency-mode value
falls back to sequential execution with a logged warning, not a fatal error
(spec.md §4.2, §7).  This flag records whether the warning is emitted.
-/
def warnsFallback : Option String → Bool
  | Option.none => false
  | some "thread" => false
  | some "process" => false
  | some _ => true

/--
Modelled from the spec: the length of the shortest output list, the number of
aligned rows a positional zip produces (spec.md §4.2, horizontal merge
truncates to `min(len(O_1),…,len(O_n))`).
-/
def minlen : List (List Value) → Nat
  | [] => 0
  | l :: ls => ls.foldl (fun m o => Nat.min m o.length) l.length

/--
Modelled from the spec: Python `zip(*outputs)` — aligns the per-action output
lists positionally, truncating to the shortest list; row `i` collects element
`i` of every output list (spec.md §4.2).
-/
def pyzip (ls : List (List Value)) : List (List Value) :=
  match ls with
  | [] => []
  | _ :: _ => (List.range (minlen ls)).map fun i => ls.map fun l => l.getD i Value.vnone

/--
Modelled from the spec: the `horizontal` (hstack) merge strategy — a
positional tuple-zip of the per-action output lists, truncated to the
shortest list, with no flattening (spec.md §4.2).
-/
def hstack (outputs : List (List Value)) : List Value :=
  (pyzip outputs).map Value.vtuple

/--
Splices one aligned row: a row value that is itself a sequence (a Python list
or tuple) contributes its elements individually, any other value contributes
itself (spec.md §4.2, vertical merge flattens one level).
-/
def flattenRow (row : List Value) : List Value :=
  row.foldr
    (fun v acc =>
      match v with
      | .vlist vs => vs ++ acc
      | .vtuple vs => vs ++ acc
      | v => v :: acc)
    []

/--
Modelled from the spec and pinned by `testMergeWorkflow` /
`testMergeUnbalancedWorkflow`: the `vertical` (vstack) merge strategy aligns
the per-action output lists positionally (like `hstack`), splices each aligned
row's sequence values one level, and concatenates the flattened rows in input
position order.  (The test expects `[4, 8, 16, 64]` for square/cube over
`[2, 4]` — row-wise order, not per-action concatenation.)
-/
def vstack (outputs : List (List Value)) : List Value :=
  ((pyzip outputs).map flattenRow).flatten

/--
Modelled from the spec: the `concatenate` merge strategy — each
horizontally-aligned row of scalar values is joined into one string with the
exact separator `". "`, reproducing `". ".join(str(v) for v in tuple)`
(spec.md §4.2).
-/
def concatMerge (outputs : List (List Value)) : List Value :=
  (pyzip outputs).map fun row => Value.vstr (String.intercalate ". " (row.map pystr))

/--
Modelled from the spec: merge-strategy selection by the task's merge-mode
string (spec.md §4.2, §6, §7).  `"hstack"`, `"vstack"` and `"concat"` select
the strategies above; `none` or any unrecognized value performs no merge —
the per-action output lists are passed through unmodified, each output list
becoming one (list-valued) result element.
-/
def mergeOutputs (mode : Option String) (outputs : List (List Value)) : List Value :=
  if mode = some "hstack" then hstack outputs
  else if mode = some "vstack" then vstack outputs
  else if mode = some "concat" then concatMerge outputs
  else outputs.map Value.vlist

/--
Modelled from the spec: a Task — one or more actions, a concurrency mode, a
merge mode, and the element-shaping settings `unpack` and `column`
(spec.md §3).  Defaults follow the construction interface: `unpack` true, no
`column`, merge `"hstack"`, sequential concurrency.  The inclusion-filter
setting (spec.md §4.2 step 2) is not modelled: no claim exercises it.
-/
structure Task where
  action : List Action := []
  unpack : Bool := true
  column : Option Nat := Option.none
  merge : Option String := some "hstack"
  concurrency : Option String := Option.none

/--
Tests whether a value is a 3-tuple `(id, data, tag)` element (spec.md §3).
-/
def isTriple : Value → Bool
  | .vtuple [_, _, _] => true
  | _ => false

/--
Modelled from the spec: data extraction from a `(id, data, tag)` element
(spec.md §4.2 step 1).  When `unpack` (or `force`) is set and the element is
a 3-tuple, the `data` component is extracted; otherwise the element passes
unchanged.
-/
def unpackData (unpack : Bool) (element : Value) : Value :=
  match element with
  | .vtuple [_, d, _] => if unpack then d else element
  | _ => element

/--
Modelled from the spec and pinned by `testExtractWorkflow`: the value passed
to a task's actions for one input element (spec.md §4.2 step 1, §8 column
round-trip).  When `column` is set, `(id, data, tag)` elements are unpacked
even when `unpack` is disabled, and the column index selects a component of
the resulting tuple (or list); non-indexable values pass unchanged.  When
`column` is unset, `(id, data, tag)` elements are unpacked only when `unpack`
is enabled.  (An out-of-range column index raises in Python; it is mapped to
`vnone` here and is exercised by no claim.)
-/
def extractValue (unpack : Bool) (column : Option Nat) (element : Value) : Value :=
  match column with
  | some c =>
      match unpackData true element with
      | .vtuple vs => vs.getD c Value.vnone
      | .vlist vs => vs.getD c Value.vnone
      | d => d
  | Option.none => unpackData unpack element

/--
Modelled from the spec and pinned by `testMergeWorkflow` /
`testExtractWorkflow`: re-wrapping of one merged result against its original
input element (spec.md §4.2 step 5).  When the original element was a
3-tuple and its data was extracted (`unpack` enabled, or `column` set), the
result replaces the `data` slot of the original tuple — unless the action
already produced a `(id, data, tag)` 3-tuple itself, which is returned as
produced.  In every other case the result replaces the element wholesale.
-/
def packResult (unpack : Bool) (column : Option Nat) (element result : Value) : Value :=
  if (unpack || column.isSome) && isTriple element then
    if isTriple result then result
    else
      match element with
      | .vtuple [i, _, tg] => .vtuple [i, result, tg]
      | _ => result
  else result

/--
Aligns the merged results with the original input elements positionally for
re-wrapping: result `i` is re-wrapped against element `i`; results beyond the
input length (an expanding action) pass through unchanged (spec.md §4.1–§4.2).
-/
def packPairs (unpack : Bool) (column : Option Nat) : List Value → List Value → List Value
  | _, [] => []
  | [], rs => rs
  | e :: es, r :: rs =>
      packResult unpack column e r :: packPairs unpack column es rs

/--
Modelled from the spec: `task.run(batch)` with an explicit worker completion
`order` for parallel dispatch (spec.md §4.2).  A task with zero actions is a
passthrough (spec.md §3).  Otherwise: extract the per-element values, dispatch
the action list over the batch by concurrency mode, merge the per-action
output lists when the task holds more than one action (a single action's
output list is used directly, whatever the merge mode), and re-wrap the
merged results against the original elements.
-/
def Task.runWith (t : Task) (order : List Nat) (elements : List Value) : List Value :=
  match t.action with
  | [] => elements
  | _ :: _ =>
      let values := elements.map (extractValue t.unpack t.column)
      let outputs := dispatch t.concurrency t.action values order
      let merged := if 1 < t.action.length then mergeOutputs t.merge outputs else outputs.headD []
      packPairs t.unpack t.column elements merged

/--
Modelled from the spec: `task.run(batch)` (spec.md §4.2) with the canonical
completion order; by `dispatch_perm_eq_runActions` the completion order never
affects the result.
-/
def Task.run (t : Task) (elements : List Value) : List Value :=
  t.runWith (List.range t.action.length) elements

/--
Modelled from the spec: a Workflow — an ordered sequence of Tasks plus the
batch size (spec.md §3; the source default batch size is 100).
-/
structure Workflow where
  tasks : List Task
  batch : Nat := 100

/--
Splits a stream into consecutive batches, structurally recursive on a fuel
bound so that it evaluates by reduction; `chunk` supplies fuel covering the
whole list, so the fuel-exhausted case is never reached.
-/
def chunkFuel (b : Nat) : Nat → List Value → List (List Value)
  | _, [] => []
  | 0, es => [es]
  | fuel + 1, e :: es => (e :: es.take (b - 1)) :: chunkFuel b fuel (es.drop (b - 1))

/--
Modelled from the spec: splitting the input stream into consecutive batches
of the configured size (spec.md §4.4).  Batch size is a positive
configuration constant (spec.md §3); the degenerate size 0 — which raises in
Python — behaves as size 1 here.
-/
def chunk (b : Nat) (es : List Value) : List (List Value) :=
  chunkFuel b es.length es

/--
Modelled from the spec: `workflow(elements)` (spec.md §4.4) — pulls the input
in batches of the configured size, threads each batch through the task list
in order, and emits the resulting elements of each batch in order before the
next batch's.  (The sequence is modelled extensionally; laziness has no
observable effect on the produced sequence.)
-/
def Workflow.run (w : Workflow) (elements : List Value) : List Value :=
  ((chunk w.batch elements).map fun b => w.tasks.foldl (fun es t => t.run es) b).flatten

/--
Modelled from the spec: per-iteration scheduling state — the number of fires
performed so far and the accumulated error log (spec.md §4.5).
-/
structure SchedState where
  fires : Nat
  log : List String

/--
Modelled from the spec: one scheduled fire (spec.md §4.5) — the workflow is
run to exhaustion with its produced sequence discarded; an exception raised
by the action chain is caught and appended to the log with its error detail,
and either way the fire completes.
-/
def fireOnce (attempt : List Value → Except String (List Value)) (elements : List Value)
    (st : SchedState) : SchedState :=
  match attempt elements with
  | .ok _ => { fires := st.fires + 1, log := st.log }
  | .error e => { fires := st.fires + 1, log := st.log ++ [e] }

/--
Modelled from the spec: the bounded scheduling loop (spec.md §4.5).  The
`attempt` argument abstracts running the workflow's action chain over the
seed elements, which may raise (actions are opaque external callables); each
iteration runs the current workflow once through `fireOnce` and the loop
performs exactly the configured number of iterations.  The loop threads the
workflow value so that any mutation of it would be observable; no iteration
modifies it.
-/
def scheduleLoop (attempt : Workflow → List Value → Except String (List Value))
    (w : Workflow) (elements : List Value) : Nat → Workflow × SchedState
  | 0 => (w, { fires := 0, log := [] })
  | n + 1 =>
      let p := scheduleLoop attempt w elements n
      (p.1, fireOnce (attempt p.1) elements p.2)

/--
Modelled from the spec: `workflow.schedule(cron_expression, elements,
iterations)` with a finite iteration bound (spec.md §4.5).  The cron-driven
real-time waits between fires are abstracted away (the spec's injectable
"sleep until next fire" primitive, spec.md §9): only the sequence of fires is
modelled, which the cron expression does not affect.
-/
def Workflow.scheduleModel (w : Workflow)
    (attempt : Workflow → List Value → Except String (List Value)) (_cron : String)
    (elements : List Value) (iterations : Nat) : Workflow × SchedState :=
  scheduleLoop attempt w elements iterations

/--
Runs a workflow that raises nothing: the total `Workflow.run` embedded as an
always-succeeding attempt (spec.md §4.5 — results are discarded by the
scheduler).
-/
def okRun (w : Workflow) (elements : List Value) : Except String (List Value) :=
  Except.ok (w.run elements)

/-!
Test fixtures: the concrete caller-supplied actions of
`src/test/python/testworkflow.py`, embedded as `Action` values.  Actions are
opaque unary batch functions (spec.md §4.1); the integer lambdas are defined
on embedded integers and leave other values unchanged (unreached: the tests
apply them to integer batches only).
-/

/-- The squaring action `lambda x: [pow(y, 2) for y in x]` of `testMergeWorkflow`. -/
def squareA : Action := fun xs => xs.map fun v => match v with | .vint n => .vint (n ^ 2) | v => v

/-- The cubing action `lambda x: [pow(y, 3) for y in x]` of `testMergeWorkflow`. -/
def cubeA : Action := fun xs => xs.map fun v => match v with | .vint n => .vint (n ^ 3) | v => v

/-- The per-element doubling function of `testChainWorkflow`. -/
def doubleF : Value → Value
  | .vint n => .vint (n * 2)
  | v => v

/-- The doubling action `lambda x: [y * 2 for y in x]` of `testChainWorkflow`. -/
def doubleA : Action := fun xs => xs.map doubleF

/-- The per-element decrement function of `testChainWorkflow`. -/
def decF : Value → Value
  | .vint n => .vint (n - 1)
  | v => v

/-- The decrement action `lambda x: [y - 1 for y in x]` of `testChainWorkflow`. -/
def decA : Action := fun xs => xs.map decF

/-- The `Nop` pipeline action: returns its input batch unchanged. -/
def nopA : Action := fun xs => xs

/-- The identity action `lambda x: x` of `testExtractWorkflow`. -/
def identityA : Action := fun xs => xs

/-- The tuple-generating action `lambda x: [(0, y, None) for y in x]` of `testMergeWorkflow`. -/
def genTripleA : Action := fun xs => xs.map fun y => .vtuple [0, y, .vnone]

/--
A sentence-splitting action in the shape of `Segmentation(sentences=True)` of
`testMergeUnbalancedWorkflow`: per input element it produces one output
element that is the list of that element's sentences, here abstracted as an
arbitrary function `f` from the element to its sentence list (the segmenter
itself is an opaque external collaborator, spec.md §1).
-/
def splitA (f : Value → List Value) : Action := fun xs => xs.map fun v => .vlist (f v)

/-- A batch-aggregating deterministic action: one output, the batch length. -/
def lenA : Action := fun xs => [.vint xs.length]

/-- The square/cube two-action task of `testMergeWorkflow`, with merge mode `m`. -/
def sqcubeW (m : Option String) : Workflow :=
  { tasks := [{ action := [squareA, cubeA], merge := m }] }

/-- The `Task([nop, nop], concurrency=...)` workflow of `testConcurrentWorkflow`. -/
def nopW (m : Option String) : Workflow :=
  { tasks := [{ action := [nopA, nopA], concurrency := m }] }

/-- The `Task(lambda x: x, unpack=False, column=0)` workflow of `testExtractWorkflow`. -/
def extractW : Workflow :=
  { tasks := [{ action := [identityA], unpack := false, column := some 0 }], batch := 1 }

/-- The tuple-generating workflow of `testMergeWorkflow` (lines 251–254). -/
def genW : Workflow := { tasks := [{ action := [genTripleA] }] }

/-- The `Task([nop, segment])` workflow of `testMergeUnbalancedWorkflow`, with merge mode `m`. -/
def unbalancedW (f : Value → List Value) (m : Option String) : Workflow :=
  { tasks := [{ action := [nopA, splitA f], merge := m }] }

/-- Auxiliary: indexing a list over its index range recovers a map. -/
theorem range_filterMap_getElem {α β : Type _} (l : List α) (f : α → β) :
    (List.range l.length).filterMap (fun i => (l[i]?).map f) = l.map f := by
  induction l with
  | nil => rfl
  | cons a t ih =>
      rw [List.length_cons, List.range_succ_eq_map, List.filterMap_cons]
      simp only [List.getElem?_cons_zero, Option.map_some', List.filterMap_map, List.map_cons]
      congr 1
      rw [← ih]
      apply List.filterMap_congr
      intro i _
      simp [Function.comp, Nat.succ_eq_add_one, List.getElem?_cons_succ]

/--
Parallel dispatch reassembles per-action outputs in action-list order: for
any completion order covering every action index, the result equals
sequential dispatch.
-/
theorem runConcurrent_eq_runActions (actions : List Action) (batch : List Value)
    (order : List Nat) (hcov : ∀ i, i < actions.length → i ∈ order) :
    runConcurrent actions batch order = runActions actions batch := by
  unfold runConcurrent runActions
  have hval : ∀ p ∈ order.filterMap fun i => (actions[i]?).map fun a => (i, a batch),
      (actions[p.1]?).map (fun a => a batch) = some p.2 := by
    intro p hp
    rcases List.mem_filterMap.mp hp with ⟨j, _, hj⟩
    cases hOj : actions[j]? with
    | none => rw [hOj] at hj; exact absurd hj (by simp)
    | some a =>
        rw [hOj, Option.map_some'] at hj
        cases hj
        simp [hOj]
  have hfind : ∀ i a, i ∈ order → actions[i]? = some a →
      ((order.filterMap fun i => (actions[i]?).map fun a => (i, a batch)).find?
          fun p => p.1 == i) = some (i, a batch) := by
    intro i a hio hia
    have hmem : ((i, a batch) : Nat × List Value) ∈
        order.filterMap fun i => (actions[i]?).map fun a => (i, a batch) :=
      List.mem_filterMap.mpr ⟨i, hio, by rw [hia]; rfl⟩
    have hsome : ((order.filterMap fun i => (actions[i]?).map fun a => (i, a batch)).find?
        fun p => p.1 == i).isSome = true :=
      List.find?_isSome.mpr ⟨(i, a batch), hmem, by simp⟩
    cases hq : (order.filterMap fun i => (actions[i]?).map fun a => (i, a batch)).find?
        fun p => p.1 == i with
    | none => rw [hq] at hsome; simp at hsome
    | some q =>
        have hkey : q.1 = i := by simpa using List.find?_some hq
        have hv := hval q (List.mem_of_find?_eq_some hq)
        rw [hkey, hia] at hv
        simp only [Option.map_some', Option.some.injEq] at hv
        simp [Prod.ext_iff, hkey, hv.symm]
  have hcongr : ∀ i ∈ List.range actions.length,
      ((order.filterMap fun i => (actions[i]?).map fun a => (i, a batch)).find?
          fun p => p.1 == i).map Prod.snd = (actions[i]?).map fun a => a batch := by
    intro i hi
    have hi' : i < actions.length := List.mem_range.mp hi
    cases hia : actions[i]? with
    | none => exact absurd hia (by simp [hi'])
    | some a => rw [hfind i a (hcov i hi') hia]; rfl
  rw [List.filterMap_congr hcongr, range_filterMap_getElem]

/-- Concurrency-mode selection never changes the per-action output lists. -/
theorem dispatch_eq_runActions (mode : Option String) (actions : List Action)
    (batch : List Value) (order : List Nat) (hcov : ∀ i, i < actions.length → i ∈ order) :
    dispatch mode actions batch order = runActions actions batch := by
  unfold dispatch
  split
  · exact runConcurrent_eq_runActions actions batch order hcov
  · rfl

/-- Single-action dispatch with the canonical order, in every mode. -/
theorem dispatch_single (mode : Option String) (a : Action) (batch : List Value) :
    dispatch mode [a] batch [0] = [a batch] := by
  unfold dispatch
  split <;> rfl

/-- Results with no corresponding input element pass through unchanged. -/
theorem packPairs_nil (u : Bool) (c : Option Nat) (rs : List Value) :
    packPairs u c [] rs = rs := by
  cases rs <;> rfl

/-- Re-wrapping a same-length result list is an element-wise operation. -/
theorem packPairs_map (u : Bool) (c : Option Nat) (h : Value → Value) :
    ∀ es : List Value, packPairs u c es (es.map h) = es.map fun e => packResult u c e (h e)
  | [] => rfl
  | e :: es => by
      simp only [List.map_cons, packPairs]
      rw [packPairs_map u c h es]

/--
A task whose single action transforms its batch element-by-element — the
shape of the deterministic chains of `testChainWorkflow` (spec.md §8
batch-size invariance).
-/
def Elementwise (t : Task) : Prop :=
  ∃ a f, t.action = [a] ∧ ∀ xs, a xs = xs.map f

/-- An elementwise task's run is a per-element map over the whole batch. -/
theorem run_elementwise {t : Task} (ht : Elementwise t) :
    ∃ g, ∀ es, t.run es = es.map g := by
  rcases ht with ⟨a, f, ha, hf⟩
  refine ⟨fun e => packResult t.unpack t.column e (f (extractValue t.unpack t.column e)),
    fun es => ?_⟩
  unfold Task.run Task.runWith
  rw [ha]
  show packPairs t.unpack t.column es
      (if 1 < List.length [a] then
        mergeOutputs t.merge
          (dispatch t.concurrency [a] (es.map (extractValue t.unpack t.column))
            (List.range (List.length [a])))
      else
        (dispatch t.concurrency [a] (es.map (extractValue t.unpack t.column))
          (List.range (List.length [a]))).headD []) =
    es.map fun e => packResult t.unpack t.column e (f (extractValue t.unpack t.column e))
  rw [show List.range (List.length [a]) = [0] from rfl, dispatch_single, if_neg (by simp)]
  show packPairs t.unpack t.column es (a (es.map (extractValue t.unpack t.column))) = _
  rw [hf, List.map_map, packPairs_map]
  simp [Function.comp]

/-- A chain of elementwise tasks is a per-element map over the whole batch. -/
theorem foldl_elementwise (tasks : List Task) (h : ∀ t ∈ tasks, Elementwise t) :
    ∃ G, ∀ es : List Value, tasks.foldl (fun es t => t.run es) es = es.map G := by
  induction tasks with
  | nil => exact ⟨id, fun es => (List.map_id es).symm⟩
  | cons t ts ih =>
      rcases run_elementwise (h t (by simp)) with ⟨g, hg⟩
      rcases ih (fun u hu => h u (by simp [hu])) with ⟨G, hG⟩
      refine ⟨G ∘ g, fun es => ?_⟩
      rw [List.foldl_cons, hg, hG, List.map_map]

/-- Auxiliary: batching with sufficient fuel splits the list without loss. -/
theorem chunkFuel_flatten (b : Nat) :
    ∀ fuel (es : List Value), es.length ≤ fuel → (chunkFuel b fuel es).flatten = es := by
  intro fuel
  induction fuel with
  | zero =>
      intro es h
      cases es with
      | nil => rfl
      | cons e es => simp at h
  | succ n ih =>
      intro es h
      cases es with
      | nil => rfl
      | cons e es =>
          rw [chunkFuel, List.flatten_cons, ih (es.drop (b - 1)) ?_, List.cons_append,
            List.take_append_drop]
          have := List.length_drop (b - 1) es
          simp only [List.length_cons] at h
          omega

/-- Rebatching is lossless: the concatenation of the batches is the input. -/
theorem chunk_flatten (b : Nat) (es : List Value) : (chunk b es).flatten = es :=
  chunkFuel_flatten b es.length es le_rfl

/--
A workflow whose tasks are all elementwise computes the same per-element map
whatever its batch size.
-/
theorem workflow_run_elementwise (tasks : List Task) (h : ∀ t ∈ tasks, Elementwise t) :
    ∃ G, ∀ (c : Nat) (es : List Value),
      Workflow.run { tasks := tasks, batch := c } es = es.map G := by
  rcases foldl_elementwise tasks h with ⟨G, hG⟩
  refine ⟨G, fun c es => ?_⟩
  unfold Workflow.run
  rw [List.map_congr_left fun l _ => hG l, ← List.map_flatten, chunk_flatten]

/-- Auxiliary: the running minimum in `minlen` never exceeds its seed. -/
theorem foldl_min_le_init (ls : List (List Value)) :
    ∀ acc : Nat, ls.foldl (fun m o => Nat.min m o.length) acc ≤ acc := by
  induction ls with
  | nil => intro acc; exact le_rfl
  | cons o ls ih =>
      intro acc
      calc (o :: ls).foldl (fun m o => Nat.min m o.length) acc
          = ls.foldl (fun m o => Nat.min m o.length) (Nat.min acc o.length) := rfl
        _ ≤ Nat.min acc o.length := ih _
        _ ≤ acc := Nat.min_le_left _ _

/-- Auxiliary: the running minimum in `minlen` bounds every visited length. -/
theorem foldl_min_le_mem (ls : List (List Value)) :
    ∀ (acc : Nat) (O : List Value), O ∈ ls →
      ls.foldl (fun m o => Nat.min m o.length) acc ≤ O.length := by
  induction ls with
  | nil => intro acc O hO; exact absurd hO (by simp)
  | cons o ls ih =>
      intro acc O hO
      rcases List.mem_cons.mp hO with rfl | hO
      · calc (O :: ls).foldl (fun m o => Nat.min m o.length) acc
            = ls.foldl (fun m o => Nat.min m o.length) (Nat.min acc O.length) := rfl
          _ ≤ Nat.min acc O.length := foldl_min_le_init ls _
          _ ≤ O.length := Nat.min_le_right _ _
      · exact ih _ O hO

/-- The zip width never exceeds any output list's length (truncation). -/
theorem minlen_le (ls : List (List Value)) (O : List Value) (hO : O ∈ ls) :
    minlen ls ≤ O.length := by
  cases ls with
  | nil => exact absurd hO (by simp)
  | cons l ls =>
      rcases List.mem_cons.mp hO with rfl | hO
      · exact foldl_min_le_init ls O.length
      · exact foldl_min_le_mem ls l.length O hO

/-- The horizontal merge produces exactly `min(len(O_1), …, len(O_n))` rows. -/
theorem hstack_length (ls : List (List Value)) : (hstack ls).length = minlen ls := by
  cases ls with
  | nil => rfl
  | cons l ls => simp [hstack, pyzip]

/-- Row `i` of the horizontal merge is the tuple of the outputs' `i`-th elements. -/
theorem hstack_getElem (ls : List (List Value)) (i : Nat) (hi : i < minlen ls) :
    (hstack ls)[i]? = some (Value.vtuple (ls.map fun O => O.getD i Value.vnone)) := by
  cases ls with
  | nil => exact absurd hi (by simp [minlen])
  | cons l ls =>
      unfold hstack pyzip
      rw [List.getElem?_map, List.getElem?_map, List.getElem?_range hi]
      rfl

/-- Row `i` of the concatenate merge joins the outputs' `i`-th elements with `". "`. -/
theorem concatMerge_getElem (ls : List (List Value)) (i : Nat) (hi : i < minlen ls) :
    (concatMerge ls)[i]? =
      some (Value.vstr
        (String.intercalate ". " (ls.map fun O => pystr (O.getD i Value.vnone)))) := by
  cases ls with
  | nil => exact absurd hi (by simp [minlen])
  | cons l ls =>
      unfold concatMerge pyzip
      rw [List.getElem?_map, List.getElem?_map, List.getElem?_range hi,
        Option.map_some', Option.map_some', List.map_map]
      rfl

/-- A merge-mode value other than the three recognized ones performs no merge. -/
theorem mergeOutputs_unrecognized (mode : Option String)
    (h1 : mode ≠ some "hstack") (h2 : mode ≠ some "vstack") (h3 : mode ≠ some "concat")
    (outputs : List (List Value)) :
    mergeOutputs mode outputs = outputs.map Value.vlist := by
  unfold mergeOutputs
  rw [if_neg h1, if_neg h2, if_neg h3]

/-- A single-action task reads its merge mode but never applies it. -/
theorem run_single_action_merge_free (t : Task) (a : Action) (ha : t.action = [a])
    (m : Option String) (es : List Value) :
    Task.run { t with merge := m } es = t.run es := by
  rcases t with ⟨action, unpack, column, merge, concurrency⟩
  simp only at ha
  subst ha
  rfl


/--
C1 counterexample: batch-size invariance fails for an arbitrary deterministic
chain.  The single-task chain whose deterministic action returns the batch
length maps `[0, 0]` to `[2]` with batch size 2 but to `[1, 1]` with batch
size 1.
-/
theorem C1_batch_invariance_counterexample :
    Workflow.run { tasks := [{ action := [lenA] }], batch := 2 } [0, 0] ≠
      Workflow.run { tasks := [{ action := [lenA] }], batch := 1 } [0, 0] := by
  intro h
  have h2 : ([Value.vint 2] : List Value) = [Value.vint 1, Value.vint 1] := h
  exact absurd (congrArg List.length h2) (by decide)

/--
C1 (amended): batch-size invariance holds for chains of single-action
elementwise tasks — each task holding exactly one action that applies a fixed
per-element function to its batch, the shape of the deterministic chain of
`testChainWorkflow` — for every batch size `b ≥ 1`; it does not extend to
arbitrary deterministic chains (see the counterexample).
-/
theorem C1_batch_invariance (tasks : List Task) (h : ∀ t ∈ tasks, Elementwise t)
    (b : Nat) (_hb : 1 ≤ b) (es : List Value) :
    Workflow.run { tasks := tasks, batch := b } es =
      Workflow.run { tasks := tasks, batch := 1 } es := by
  rcases workflow_run_elementwise tasks h with ⟨G, hG⟩
  rw [hG b es, hG 1 es]

/--
C1 witness: the doubling/decrement chain of `testChainWorkflow` at batch
size 4 versus batch size 1, with its expected output sequence.
-/
theorem C1_batch_invariance_witness :
    Workflow.run { tasks := [{ action := [doubleA] }, { action := [decA] }], batch := 4 }
        [1, 2, 4, 8, 16, 32] =
      Workflow.run { tasks := [{ action := [doubleA] }, { action := [decA] }], batch := 1 }
        [1, 2, 4, 8, 16, 32] ∧
    Workflow.run { tasks := [{ action := [doubleA] }, { action := [decA] }], batch := 4 }
        [1, 2, 4, 8, 16, 32] = [1, 3, 7, 15, 31, 63] :=
  ⟨C1_batch_invariance [{ action := [doubleA] }, { action := [decA] }]
      (by
        intro t ht
        rcases List.mem_cons.mp ht with rfl | ht
        · exact ⟨doubleA, doubleF, rfl, fun xs => rfl⟩
        · rcases List.mem_cons.mp ht with rfl | ht
          · exact ⟨decA, decF, rfl, fun xs => rfl⟩
          · exact absurd ht (by simp))
      4 (by decide) [1, 2, 4, 8, 16, 32],
   rfl⟩

/--
C2: for the same action list and batch, sequential, thread-parallel and
process-parallel dispatch produce identical per-action output lists whatever
the worker completion order; an unrecognized concurrency-mode value warns and
falls back to sequential execution with the same result rather than raising;
and `Task([nop, nop])` over `[2, 4]` yields `[(2, 2), (4, 4)]` in every mode
(`testConcurrentWorkflow`).
-/
theorem C2_concurrency_equivalence :
    (∀ (mode : Option String) (actions : List Action) (batch : List Value) (order : List Nat),
        order.Perm (List.range actions.length) →
        dispatch mode actions batch order = runActions actions batch) ∧
    warnsFallback (some "unknown") = true ∧
    warnsFallback (some "thread") = false ∧
    warnsFallback (some "process") = false ∧
    (∀ (actions : List Action) (batch : List Value) (order : List Nat),
        dispatch (some "unknown") actions batch order = runActions actions batch) ∧
    (nopW (some "thread")).run [2, 4] = [.vtuple [2, 2], .vtuple [4, 4]] ∧
    (nopW (some "process")).run [2, 4] = [.vtuple [2, 2], .vtuple [4, 4]] ∧
    (nopW (some "unknown")).run [2, 4] = [.vtuple [2, 2], .vtuple [4, 4]] ∧
    (nopW Option.none).run [2, 4] = [.vtuple [2, 2], .vtuple [4, 4]] := by
  refine ⟨?_, rfl, rfl, rfl, ?_, rfl, rfl, rfl, rfl⟩
  · intro mode actions batch order hperm
    exact dispatch_eq_runActions mode actions batch order
      fun i hi => hperm.mem_iff.mpr (List.mem_range.mpr hi)
  · intro actions batch order
    unfold dispatch
    rw [if_neg (by decide)]

/--
C2 witness: thread-parallel dispatch of the two-nop action list over
`[2, 4]`, with the workers completing in reversed order, still equals
sequential dispatch.
-/
theorem C2_concurrency_equivalence_witness :
    ([1, 0] : List Nat).Perm (List.range 2) ∧
    dispatch (some "thread") [nopA, nopA] [2, 4] [1, 0] = runActions [nopA, nopA] [2, 4] :=
  ⟨by decide, C2_concurrency_equivalence.1 (some "thread") [nopA, nopA] [2, 4] [1, 0] (by decide)⟩

/--
C3: horizontal merge is a positional tuple-zip truncated to the shortest
output list with no flattening: it has `min(len(O_1), …, len(O_n))` rows, row
`i` is the tuple of the outputs' `i`-th elements, squaring and cubing over
`[2, 4]` yield `[(4, 8), (16, 64)]`, and an identity action paired with a
sentence-splitting action over one input string yields the single tuple of
the original string and the nested sentence list
(`testMergeWorkflow` / `testMergeUnbalancedWorkflow`).
-/
theorem C3_horizontal_merge :
    (∀ ls : List (List Value), (hstack ls).length = minlen ls) ∧
    (∀ (ls : List (List Value)) (O : List Value), O ∈ ls → minlen ls ≤ O.length) ∧
    (∀ (ls : List (List Value)) (i : Nat), i < minlen ls →
        (hstack ls)[i]? = some (Value.vtuple (ls.map fun O => O.getD i Value.vnone))) ∧
    (sqcubeW (some "hstack")).run [2, 4] = [.vtuple [4, 8], .vtuple [16, 64]] ∧
    (∀ (f : Value → List Value) (s : String),
        (unbalancedW f (some "hstack")).run [.vstr s] =
          [.vtuple [.vstr s, .vlist (f (.vstr s))]]) :=
  ⟨hstack_length, minlen_le, hstack_getElem, rfl, fun _ _ => rfl⟩

/--
C3 witness: the square/cube output lists at row 0, and truncation bounded by
the second output list.
-/
theorem C3_horizontal_merge_witness :
    (0 < minlen [[4, 8], [16, 64]] ∧
      (hstack [[4, 8], [16, 64]])[0]? = some (Value.vtuple [4, 16])) ∧
    minlen [[4, 8], [16, 64]] ≤ ([16, 64] : List Value).length :=
  ⟨⟨by decide, C3_horizontal_merge.2.2.1 [[4, 8], [16, 64]] 0 (by decide)⟩,
   C3_horizontal_merge.2.1 [[4, 8], [16, 64]] [16, 64]
     (List.mem_cons.mpr (Or.inr (List.mem_cons_self _ _)))⟩

/--
C4 counterexample: vertical merge is not "flatten each output list, then
concatenate in action order".  For squaring and cubing over `[2, 4]` the
per-action outputs are `O_1 = [4, 16]` and `O_2 = [8, 64]`; concatenation of
the flattened lists in action order would give `[4, 16, 8, 64]`, but the task
produces `[4, 8, 16, 64]` (the value `testMergeWorkflow` expects).
-/
theorem C4_vertical_merge_counterexample :
    (sqcubeW (some "vstack")).run [2, 4] ≠ [4, 16, 8, 64] := by
  intro h
  have h2 : ([4, 8, 16, 64] : List Value) = [4, 16, 8, 64] := h
  have h3 : (8 : Int) = 16 :=
    congrArg (fun l : List Value => match l.getD 1 Value.vnone with | .vint n => n | _ => 0) h2
  exact absurd h3 (by decide)

/--
C4 (amended): vertical merge aligns the per-action output lists positionally
(truncating to the shortest), flattens each aligned row one level — a row
value that is itself a sequence is spliced in as individual elements — and
concatenates the flattened rows in input-position order: squaring and cubing
over `[2, 4]` yield `[4, 8, 16, 64]`, and an identity action paired with a
sentence-splitting action over one input string yields the original string
followed by the individual sentences (`testMergeUnbalancedWorkflow`).
-/
theorem C4_vertical_merge :
    (∀ ls : List (List Value),
        vstack ls = ((List.range (minlen ls)).map fun i =>
          flattenRow (ls.map fun O => O.getD i Value.vnone)).flatten) ∧
    (sqcubeW (some "vstack")).run [2, 4] = [4, 8, 16, 64] ∧
    (∀ (f : Value → List Value) (s : String),
        (unbalancedW f (some "vstack")).run [.vstr s] = .vstr s :: f (.vstr s)) := by
  refine ⟨?_, rfl, ?_⟩
  · intro ls
    cases ls with
    | nil => rfl
    | cons l ls =>
        unfold vstack pyzip
        rw [List.map_map]
        rfl
  · intro f s
    simp [unbalancedW, Workflow.run, chunk, chunkFuel, Task.run, Task.runWith, dispatch,
      runActions, nopA, splitA, extractValue, unpackData, mergeOutputs, vstack, pyzip,
      minlen, flattenRow, packPairs, packPairs_nil, packResult, isTriple]

/--
C5: concatenate merge joins each horizontally-aligned row of values into one
string with the exact separator `". "` applied to their Python string forms,
and the squaring/cubing pair over `[2, 4]` yields `["4. 8", "16. 64"]`
(`testMergeWorkflow`).
-/
theorem C5_concatenate_merge :
    (∀ (ls : List (List Value)) (i : Nat), i < minlen ls →
        (concatMerge ls)[i]? = some (Value.vstr
          (String.intercalate ". " (ls.map fun O => pystr (O.getD i Value.vnone))))) ∧
    (sqcubeW (some "concat")).run [2, 4] = [.vstr "4. 8", .vstr "16. 64"] :=
  ⟨concatMerge_getElem, rfl⟩

/-- C5 witness: the square/cube output lists joined at row 0. -/
theorem C5_concatenate_merge_witness :
    0 < minlen [[4, 16], [8, 64]] ∧
      (concatMerge [[4, 16], [8, 64]])[0]? = some (Value.vstr "4. 8") :=
  ⟨by decide, C5_concatenate_merge.1 [[4, 16], [8, 64]] 0 (by decide)⟩

/--
C6 counterexample: with merge mode `none`, a task holding several actions
does not return the first action's output list `O_1`.  For squaring and
cubing over `[2, 4, 6]`, `O_1 = [4, 16, 36]`, but the task returns the two
per-action output lists as two list elements (the value `testMergeWorkflow`
expects), which even has a different length.
-/
theorem C6_merge_none_counterexample :
    (sqcubeW Option.none).run [2, 4, 6] ≠ [4, 16, 36] := by
  intro h
  have h2 : ([Value.vlist [4, 16, 36], Value.vlist [8, 64, 216]] : List Value) = [4, 16, 36] := h
  exact absurd (congrArg List.length h2) (by decide)

/--
C6 (amended): merge mode `none` (and any unrecognized merge-mode value)
performs no merge: a single-action task returns `O_1` unchanged whatever its
merge mode, and a multi-action task passes the per-action output lists
through unmerged, one (list-valued) output element per action; merge mode is
mutable task state read fresh on every run, so the task constructed with
`hstack` in `testMergeWorkflow` returns the unmerged outputs once its merge
mode is reassigned to `none`.
-/
theorem C6_merge_none_passthrough :
    (∀ (t : Task) (a : Action), t.action = [a] → ∀ (m : Option String) (es : List Value),
        Task.run { t with merge := m } es = t.run es) ∧
    (∀ (t : Task) (es : List Value),
        t.merge ≠ some "hstack" → t.merge ≠ some "vstack" → t.merge ≠ some "concat" →
        t.run es = Task.run { t with merge := Option.none } es) ∧
    (sqcubeW Option.none).run [2, 4, 6] = [.vlist [4, 16, 36], .vlist [8, 64, 216]] := by
  refine ⟨fun t a ha m es => run_single_action_merge_free t a ha m es, ?_, rfl⟩
  intro t es h1 h2 h3
  rcases t with ⟨action, unpack, column, merge, concurrency⟩
  simp only at h1 h2 h3
  cases action with
  | nil => rfl
  | cons a as =>
      cases as with
      | nil => rfl
      | cons a2 as =>
          show packPairs unpack column es
              (if 1 < (a :: a2 :: as).length then
                mergeOutputs merge (dispatch concurrency (a :: a2 :: as)
                  (es.map (extractValue unpack column)) (List.range (a :: a2 :: as).length))
              else (dispatch concurrency (a :: a2 :: as)
                  (es.map (extractValue unpack column))
                  (List.range (a :: a2 :: as).length)).headD []) =
            packPairs unpack column es
              (if 1 < (a :: a2 :: as).length then
                mergeOutputs Option.none (dispatch concurrency (a :: a2 :: as)
                  (es.map (extractValue unpack column)) (List.range (a :: a2 :: as).length))
              else (dispatch concurrency (a :: a2 :: as)
                  (es.map (extractValue unpack column))
                  (List.range (a :: a2 :: as).length)).headD [])
          rw [if_pos (by simp), if_pos (by simp),
            mergeOutputs_unrecognized merge h1 h2 h3,
            mergeOutputs_unrecognized Option.none (by decide) (by decide) (by decide)]

/--
C6 witness: a single-action task is insensitive to its merge mode, and a
two-action task with an unrecognized merge mode behaves as merge `none`.
-/
theorem C6_merge_none_passthrough_witness :
    Task.run { action := [squareA], merge := some "vstack" } [2, 4] =
      Task.run { action := [squareA] } [2, 4] ∧
    Task.run { action := [squareA, cubeA], merge := some "mystery" } [2, 4] =
      Task.run { action := [squareA, cubeA], merge := Option.none } [2, 4] :=
  ⟨C6_merge_none_passthrough.1 { action := [squareA] } squareA rfl (some "vstack") [2, 4],
   C6_merge_none_passthrough.2.1 { action := [squareA, cubeA], merge := some "mystery" } [2, 4]
     (by decide) (by decide) (by decide)⟩

/--
C7: the column-extraction round trip of `testExtractWorkflow` — the task with
`unpack=False` and `column=0` maps the 2-tuple `(0, 1)` to `0`, splices the
selected column of the data back into the 3-tuple `(0, (1, 2), None)` giving
`(0, 1, None)`, and passes the non-tuple scalar `1` through unchanged.
-/
theorem C7_column_extraction :
    extractW.run [.vtuple [0, 1]] = [0] ∧
    extractW.run [.vtuple [0, .vtuple [1, 2], .vnone]] = [.vtuple [0, 1, .vnone]] ∧
    extractW.run [1] = [1] :=
  ⟨rfl, rfl, rfl⟩

/--
C8: scheduler isolation of per-iteration failures — when every invocation of
the workflow's action chain raises, each iteration's exception is caught and
appended to the log (the error detail appears once per fire), the loop is not
terminated early, and a finite iteration bound `n` still performs exactly `n`
fires; concretely, one scheduled iteration of an always-raising
`FileNotFoundError` action fires once and logs the error name
(`testScheduleErrorWorkflow`).
-/
theorem C8_scheduler_error_isolation :
    (∀ (e : String) (w : Workflow) (cron : String) (elements : List Value) (n : Nat),
        w.scheduleModel (fun _ _ => Except.error e) cron elements n =
          (w, { fires := n, log := List.replicate n e })) ∧
    (Workflow.scheduleModel { tasks := [{ action := [lenA] }] }
        (fun _ _ => Except.error "FileNotFoundError") "* * * * * *" [.vstr "test"] 1).2.fires
      = 1 ∧
    "FileNotFoundError" ∈ (Workflow.scheduleModel { tasks := [{ action := [lenA] }] }
        (fun _ _ => Except.error "FileNotFoundError") "* * * * * *" [.vstr "test"] 1).2.log := by
  refine ⟨?_, rfl, List.Mem.head _⟩
  intro e w cron elements n
  unfold Workflow.scheduleModel
  induction n with
  | zero => rfl
  | succ k ih =>
      rw [scheduleLoop, ih]
      show (w, fireOnce (fun _ => Except.error e) elements { fires := k, log := List.replicate k e }) = _
      unfold fireOnce
      rw [List.replicate_succ']

/--
C10: scheduling is a frame effect on the workflow — after the scheduling loop
completes, the workflow and in particular its task list (same count, same
order) are unchanged, so a scheduled workflow can be invoked directly
afterwards; concretely, the one-task workflow of `testScheduleWorkflow`
still holds exactly one task after one scheduled iteration.
-/
theorem C10_schedule_frame :
    (∀ (attempt : Workflow → List Value → Except String (List Value)) (w : Workflow)
        (cron : String) (elements : List Value) (n : Nat),
        (w.scheduleModel attempt cron elements n).1 = w ∧
        (w.scheduleModel attempt cron elements n).1.tasks = w.tasks) ∧
    (Workflow.scheduleModel { tasks := [{ action := [] }] } okRun "* * * * * *"
        [.vstr "test"] 1).1.tasks.length = 1 := by
  refine ⟨?_, rfl⟩
  intro attempt w cron elements n
  have h1 : (w.scheduleModel attempt cron elements n).1 = w := by
    unfold Workflow.scheduleModel
    induction n with
    | zero => rfl
    | succ k ih => rw [scheduleLoop]; exact ih
  exact ⟨h1, by rw [h1]⟩

/--
C9: action-generated 3-tuples override re-wrapping — with unpack enabled, a
result that is itself an `(id, data, tag)` 3-tuple is returned as produced
instead of being re-wrapped with the input element's id and tag; concretely
the action mapping every value to `(0, value, None)` applied to
`(1, "text", "tags")` yields `(0, "text", None)` (`testMergeWorkflow`).
-/
theorem C9_generated_triples :
    (∀ (c : Option Nat) (e r : Value), isTriple e = true → isTriple r = true →
        packResult true c e r = r) ∧
    genW.run [.vtuple [1, .vstr "text", .vstr "tags"]] = [.vtuple [0, .vstr "text", .vnone]] := by
  refine ⟨?_, rfl⟩
  intro c e r he hr
  unfold packResult
  rw [if_pos (by simp [he]), if_pos hr]

/-- C9 witness: the generated-triple re-wrap override at the test's element. -/
theorem C9_generated_triples_witness :
    packResult true Option.none (.vtuple [1, .vstr "text", .vstr "tags"])
        (.vtuple [0, .vstr "text", .vnone]) = .vtuple [0, .vstr "text", .vnone] :=
  C9_generated_triples.1 Option.none (.vtuple [1, .vstr "text", .vstr "tags"])
    (.vtuple [0, .vstr "text", .vnone]) rfl rfl

end Txtai
